import Mathlib

/-!
# libxmljs: bootstrap and script-execution layer (`src/libxmljs.cc`)

A shallow embedding of `src/libxmljs.cc`.  The scripting engine (V8) is an
external dependency: its answers (does a source unit compile, what does the
script return or throw, what does a captured exception look like) are taken as
the parameter `Engine`, and every call the program makes to the engine, to a
capability module or to the C output streams is recorded, in program order, in
the `trace` of the `World`.

* A `TryCatch` block registers itself with the engine when it is constructed
  and unregisters when it is destroyed; an exception thrown by the engine is
  captured by the innermost registered block.  `World.handlers` is that stack.
* `exit` ends the process: the outcome is `Outcome.exited status`.
* `HandleScope` only governs the lifetime of local handles and is not modelled.
  Entering the context (`Context::Scope`) is recorded; its release when `main`
  returns is not.
* The engine's answers are those for scripts that finish; a script that runs
  forever is outside the model, and so is whatever a script itself prints.
* A `const char*` that may be null is an `Option String`.  Handing a null
  pointer to a `%s` conversion has no defined output; the call is recorded as
  `Event.fault` and the run goes on with the next statement.
-/

namespace LibXmlJs

/-! ## Data model -/

/-- Script values, as far as `ReportException` inspects them. For an object,
`props` are its properties and `str` is the text its string conversion yields
(`none` when the conversion throws). -/
inductive Value where
  | undefined
  | null
  | bool (b : Bool)
  | number (n : Int)
  | string (s : String)
  | object (props : List (String × Value)) (str : Option String)

/-- The two C output streams. -/
inductive Stream where
  | stdout
  | stderr
  deriving DecidableEq

/-- The capability modules registered by `InitializeLibXMLJS`. -/
inductive Module where
  | Parser
  | SaxParser
  | SaxPushParser
  deriving DecidableEq

/-- A compiled script (`Handle<Script>`, non-empty). -/
structure Script where
  source : String
  resourceName : Value

/-- The engine's `Message` object of a captured exception. -/
structure Message where
  /-- The result of `GetScriptResourceName()` -/
  resourceName : Value
  /-- The result of `GetLineNumber()` -/
  lineNumber : Int
  /-- The result of `GetSourceLine()`; `none` is the empty handle -/
  sourceLine : Option String
  /-- The result of `GetStartColumn()` -/
  startColumn : Int
  /-- The result of `GetEndColumn()` -/
  endColumn : Int

/-- What a `TryCatch` block holds once it has caught: `Message()` (possibly the
empty handle) and `Exception()`. -/
structure Caught where
  message : Option Message
  exception : Value

/-- A `TryCatch` block: `none` while nothing has been caught. -/
abbrev TryCatch := Option Caught

/-- The engine, as the program sees it. -/
structure Engine where
  /-- The result of `Script::Compile(source, filename)`: the script, or the exception thrown -/
  compile : String → Value → Except Caught Script
  /-- The result of `script->Run()`: the completion value, or the exception thrown -/
  run : Script → Except Caught Value
  /-- the text `Message::PrintCurrentStackTrace` writes -/
  currentStackTrace : String

/-- Everything the program does that is visible from outside, in order. -/
inductive Event where
  /-- text written to a stream -/
  | write (s : Stream) (text : String)
  /-- a formatted write that was handed a null pointer for `%s` -/
  | fault (s : Stream)
  /-- A call of `fflush` -/
  | flush (s : Stream)
  /-- The call `V8::SetFlagsFromCommandLine(&argc, argv, true)` -/
  | setFlags (argv : List String)
  /-- The call `V8::Initialize()` -/
  | v8Initialize
  /-- The call `V8::SetFatalErrorHandler(OnFatalError)` -/
  | setFatalErrorHandler
  /-- The call `Context::New()` -/
  | contextNew
  /-- The call `Context::Scope context_scope(context)` -/
  | contextEnter
  /-- The call `Object::New()`, with the handle it returned -/
  | objectNew (obj : Nat)
  /-- The call `M::Initialize(target)` of a capability module -/
  | register (m : Module) (target : Nat)
  /-- The call `Script::Compile(source, filename)` -/
  | compile (source : String) (filename : Value)
  /-- The call `script->Run()` -/
  | run (script : Script)
  /-- The call `global_obj->Set(String::NewSymbol(name), obj)` -/
  | globalSet (name : String) (obj : Nat)
  /-- The call `V8::Dispose()` -/
  | dispose

/-- State of the process and of the engine. -/
structure World where
  /-- events so far, oldest first -/
  trace : List Event
  /-- registered `TryCatch` blocks, innermost first -/
  handlers : List TryCatch
  /-- the next handle `Object::New()` hands out -/
  nextObject : Nat

/-- How a piece of the program ends. -/
inductive Outcome (α : Type) where
  /-- control returns to the caller with a value -/
  | returned (a : α) (w : World)
  /-- The process ended: `exit(status)` was called -/
  | exited (status : Int) (w : World)

/-- A piece of the program: from a world to an outcome. -/
def Proc (α : Type) : Type := World → Outcome α

/-- Sequencing: the second part runs only if the first returns. -/
def Proc.bind {α β : Type} (p : Proc α) (f : α → Proc β) : Proc β :=
  fun w =>
    match p w with
    | Outcome.returned a w1 => f a w1
    | Outcome.exited status w1 => Outcome.exited status w1

instance : Monad Proc where
  pure := fun a w => Outcome.returned a w
  bind := Proc.bind

/-! ## Primitive operations -/

/-- Record one event. -/
def emit (e : Event) : Proc Unit :=
  fun w => Outcome.returned () (World.mk (w.trace ++ [e]) w.handlers w.nextObject)

/-- The C library call `exit(status)`. -/
def exit {α : Type} (status : Int) : Proc α :=
  fun w => Outcome.exited status w

/-- A formatted write whose text depends on `%s` arguments: `none` when one of
them is a null pointer. -/
def fprintf (s : Stream) (text : Option String) : Proc Unit :=
  match text with
  | some t => emit (Event.write s t)
  | none => emit (Event.fault s)

/-- The C library call `puts(s)`: the text and a newline on standard output. -/
def puts (s : String) : Proc Unit :=
  emit (Event.write Stream.stdout (s ++ "\n"))

/-- The C library call `fflush(stream)`. -/
def fflush (s : Stream) : Proc Unit :=
  emit (Event.flush s)

/-- Constructor of a `TryCatch` block. -/
def tryCatchEnter : Proc Unit :=
  fun w => Outcome.returned () (World.mk w.trace (none :: w.handlers) w.nextObject)

/-- Destructor of the innermost `TryCatch` block. -/
def tryCatchLeave : Proc Unit :=
  fun w => Outcome.returned () (World.mk w.trace w.handlers.tail w.nextObject)

/-- The innermost `TryCatch` block. -/
def tryCatchCurrent : Proc TryCatch :=
  fun w => Outcome.returned (w.handlers.head?.getD none) w

/-- The engine throws: the innermost `TryCatch` block captures the exception. -/
def capture (c : Caught) : Proc Unit :=
  fun w =>
    match w.handlers with
    | [] => Outcome.returned () w
    | _ :: rest => Outcome.returned () (World.mk w.trace (some c :: rest) w.nextObject)

/-- Embeds `Script::Compile(source, filename)`: `none` is the empty handle. -/
def scriptCompile (E : Engine) (source : String) (filename : Value) : Proc (Option Script) := do
  emit (Event.compile source filename)
  match E.compile source filename with
  | Except.ok script => pure (some script)
  | Except.error c =>
    capture c
    pure none

/-- Embeds `script->Run()`: `none` is the empty handle. -/
def scriptRun (E : Engine) (script : Script) : Proc (Option Value) := do
  emit (Event.run script)
  match E.run script with
  | Except.ok v => pure (some v)
  | Except.error c =>
    capture c
    pure none

/-- Embeds `Object::New()`: a handle to a new object. -/
def objectNew : Proc Nat :=
  fun w => Outcome.returned w.nextObject
    (World.mk (w.trace ++ [Event.objectNew w.nextObject]) w.handlers (w.nextObject + 1))

/-- Embeds `String::Utf8Value value(v)` followed by `*value`: the text, or a null
pointer when the conversion to a string fails. -/
def Utf8Value : Value → Option String
  | Value.undefined => some "undefined"
  | Value.null => some "null"
  | Value.bool true => some "true"
  | Value.bool false => some "false"
  | Value.number n => some (toString n)
  | Value.string s => some s
  | Value.object _ str => str

/-- Embeds `error->IsObject()` -/
def Value.IsObject : Value → Bool
  | Value.object _ _ => true
  | _ => false

/-- Embeds `raw_stack->IsString()` -/
def Value.IsString : Value → Bool
  | Value.string _ => true
  | _ => false

/-- Embeds `obj->Get(String::New(key))`: `undefined` when there is no such property. -/
def Value.Get (key : String) : Value → Value
  | Value.object props _ => (props.lookup key).getD Value.undefined
  | _ => Value.undefined

/-! ## The program -/

/-- Embeds `OnFatalError(location, message)` -/
def OnFatalError (location : Option String) (message : String) : Proc Unit := do
  match location with
  | some loc =>
    fprintf Stream.stderr
      (some ("\x1b[1;31mV8 FATAL ERROR.\x1b[m " ++ loc ++ " " ++ message ++ "\n"))
  | none =>
    fprintf Stream.stderr (some ("\x1b[1;31mV8 FATAL ERROR.\x1b[m " ++ message ++ "\n"))
  exit 1

/-- Embeds `ToCString(value)` -/
def ToCString (value : Option String) : String :=
  match value with
  | some s => s
  | none => "<str conversion failed>"

/-- Embeds `Handle<String>::Cast(v)`, for a value that is a string. -/
def Value.castString : Value → Option String
  | Value.string s => some s
  | _ => none

/-- Lines 41-46 of `ReportException`: the handle `stack`, `none` when empty. -/
def stackOf (error : Value) : Option String :=
  if error.IsObject then
    let raw_stack := error.Get "stack"
    if raw_stack.IsString then raw_stack.castString else none
  else none

/-- The loop `for (int i = 0; i < start; i++) fprintf(stderr, " ");` from `i` on. -/
def spaceLoop (i start : Int) : Proc Unit :=
  fun w =>
    if i < start then
      match fprintf Stream.stderr (some " ") w with
      | Outcome.returned _ w1 => spaceLoop (i + 1) start w1
      | Outcome.exited status w1 => Outcome.exited status w1
    else Outcome.returned () w
termination_by (start - i).toNat
decreasing_by omega

/-- The loop `for (int i = start; i < end; i++) fprintf(stderr, "^");` from `i` on. -/
def caretLoop (i stop : Int) : Proc Unit :=
  fun w =>
    if i < stop then
      match fprintf Stream.stderr (some "^") w with
      | Outcome.returned _ w1 => caretLoop (i + 1) stop w1
      | Outcome.exited status w1 => Outcome.exited status w1
    else Outcome.returned () w
termination_by (stop - i).toNat
decreasing_by omega

/-- Lines 48-70 of `ReportException`: the positional report. -/
def positionalReport (E : Engine) (message : Message) (error : Value) : Proc Unit := do
  let exception := Utf8Value error
  let filename := Utf8Value message.resourceName
  let filename_string := ToCString filename
  let linenum := message.lineNumber
  fprintf Stream.stderr
    (exception.map fun e => filename_string ++ ":" ++ toString linenum ++ ": " ++ e ++ "\n")
  let sourceline := message.sourceLine
  let sourceline_string := ToCString sourceline
  fprintf Stream.stderr (some (sourceline_string ++ "\n"))
  let start := message.startColumn
  spaceLoop 0 start
  let stop := message.endColumn
  caretLoop start stop
  fprintf Stream.stderr (some "\n")
  fprintf Stream.stderr (some E.currentStackTrace)

/-- Lines 74-75 of `ReportException`: the stack report. -/
def stackReport (stack : String) : Proc Unit :=
  let trace := Utf8Value (Value.string stack)
  fprintf Stream.stderr (trace.map fun t => t ++ "\n")

/-- Embeds `try_catch->Message()`: `none` is the empty handle. -/
def TryCatch.Message (try_catch : TryCatch) : Option Message :=
  match try_catch with
  | some c => c.message
  | none => none

/-- Embeds `try_catch->Exception()` -/
def TryCatch.Exception (try_catch : TryCatch) : Value :=
  match try_catch with
  | some c => c.exception
  | none => Value.undefined

/-- Embeds `try_catch.HasCaught()` -/
def TryCatch.HasCaught (try_catch : TryCatch) : Bool :=
  try_catch.isSome

/-- Embeds `ReportException(try_catch)` -/
def ReportException (E : Engine) (try_catch : TryCatch) : Proc Unit :=
  match try_catch.Message with
  | none => do
    fprintf Stream.stderr (some "Error: (no message)\n")
    fflush Stream.stderr
  | some message => do
    let error := try_catch.Exception
    match stackOf error with
    | none => positionalReport E message error
    | some stack => stackReport stack
    fflush Stream.stderr

/-- Embeds `ExecuteString(source, filename)` -/
def ExecuteString (E : Engine) (source : String) (filename : Value) : Proc Value := do
  tryCatchEnter
  match (← scriptCompile E source filename) with
  | none =>
    ReportException E (← tryCatchCurrent)
    exit 1
  | some script =>
    match (← scriptRun E script) with
    | none =>
      ReportException E (← tryCatchCurrent)
      exit 1
    | some result =>
      tryCatchLeave
      pure result

/-- Embeds `ExecuteNativeJS(filename, data)` -/
def ExecuteNativeJS (E : Engine) (filename : String) (data : String) : Proc Unit := do
  tryCatchEnter
  let _ ← ExecuteString E data (Value.string filename)
  let try_catch ← tryCatchCurrent
  if try_catch.HasCaught then
    puts "There is an error in Node's built-in javascript"
    puts "This should be reported as a bug!"
    ReportException E try_catch
    exit 1
  tryCatchLeave

/-- Embeds `InitializeLibXMLJS(target)`; `native_sax_parser_source` is the bundled
source `native_sax_parser` of `natives.h`. -/
def InitializeLibXMLJS (E : Engine) (native_sax_parser_source : String) (target : Nat) :
    Proc Unit := do
  emit (Event.register Module.Parser target)
  emit (Event.register Module.SaxParser target)
  emit (Event.register Module.SaxPushParser target)
  ExecuteNativeJS E "sax_parser.js" native_sax_parser_source

/-- Embeds `init(target)`, the entry point used when loaded as a plugin. -/
def init (E : Engine) (native_sax_parser_source : String) (target : Nat) : Proc Unit :=
  InitializeLibXMLJS E native_sax_parser_source target

/-- The world in which a piece of the program ended. -/
def Outcome.world {α : Type} : Outcome α → World
  | Outcome.returned _ w => w
  | Outcome.exited _ w => w

/-- The world after some more events. -/
def World.append (w : World) (evs : List Event) : World :=
  World.mk (w.trace ++ evs) w.handlers w.nextObject

/-- The world at process start. -/
def World.start : World := World.mk [] [] 0

/-- The text a list of events puts on the error stream. -/
def stderrText : List Event → String
  | [] => ""
  | Event.write Stream.stderr t :: rest => t ++ stderrText rest
  | _ :: rest => stderrText rest

/-- The text a list of events puts on standard output. -/
def stdoutText : List Event → String
  | [] => ""
  | Event.write Stream.stdout t :: rest => t ++ stdoutText rest
  | _ :: rest => stdoutText rest

/-- Output events on the error stream: writes, faulty writes and flushes. -/
def Event.isErrorOutput : Event → Bool
  | Event.write Stream.stderr _ => true
  | Event.fault Stream.stderr => true
  | Event.flush Stream.stderr => true
  | _ => false

/-- The events of the positional report (lines 48-70), in order: the header
line, the source line, the spaces, the carets, the newline and the engine's
current stack trace. -/
def positionalEvents (E : Engine) (message : Message) (error : Value) : List Event :=
  (match Utf8Value error with
    | some e => Event.write Stream.stderr
        (ToCString (Utf8Value message.resourceName) ++ ":" ++ toString message.lineNumber
          ++ ": " ++ e ++ "\n")
    | none => Event.fault Stream.stderr)
  :: Event.write Stream.stderr (ToCString message.sourceLine ++ "\n")
  :: (List.replicate message.startColumn.toNat (Event.write Stream.stderr " ")
      ++ (List.replicate (message.endColumn - message.startColumn).toNat
            (Event.write Stream.stderr "^")
      ++ [Event.write Stream.stderr "\n", Event.write Stream.stderr E.currentStackTrace]))

/-- The exit status, when the process was ended by `exit`. -/
def Outcome.status {α : Type} : Outcome α → Option Int
  | Outcome.returned _ _ => none
  | Outcome.exited status _ => some status

/-! ## Concrete inputs used to evaluate the program -/

/-- A thrown object that carries a `stack` string. -/
def boomError : Value :=
  Value.object
    [("message", Value.string "boom"),
      ("stack", Value.string "Error: boom\n    at test.js:1:7")]
    (some "Error: boom")

/-- A thrown object without a `stack` property. -/
def syntaxError : Value :=
  Value.object [("message", Value.string "Unexpected token ;")]
    (some "SyntaxError: Unexpected token ;")

/-- The message of the parse failure of `var x = ;`, reported under the given
resource name. -/
def syntaxMessage (filename : Value) : Message :=
  Message.mk filename 1 (some "var x = ;") 8 9

/-- An engine in which every source fails to compile with `syntaxError`. -/
def rejectingEngine : Engine :=
  Engine.mk
    (fun _ filename => Except.error (Caught.mk (some (syntaxMessage filename)) syntaxError))
    (fun _ => Except.ok Value.undefined) ""

/-- An engine in which every source compiles and every script throws
`boomError`. -/
def throwingEngine : Engine :=
  Engine.mk (fun source filename => Except.ok (Script.mk source filename))
    (fun script => Except.error
      (Caught.mk (some (Message.mk script.resourceName 1 (some script.source) 0 5)) boomError))
    ""

/-- An engine in which every source compiles and every script completes with
the value 42. -/
def acceptingEngine : Engine :=
  Engine.mk (fun source filename => Except.ok (Script.mk source filename))
    (fun _ => Except.ok (Value.number 42)) ""

/-! ## Basic facts about the primitives -/

theorem bind_apply {α β : Type} (p : Proc α) (f : α → Proc β) (w : World) :
    (p >>= f) w = Proc.bind p f w := rfl

theorem pure_apply {α : Type} (a : α) (w : World) :
    (pure a : Proc α) w = Outcome.returned a w := rfl

theorem append_nil (w : World) : w.append [] = w := by
  cases w; simp [World.append]

theorem append_append (w : World) (xs ys : List Event) :
    (w.append xs).append ys = w.append (xs ++ ys) := by
  simp [World.append]

theorem emit_eq (e : Event) (w : World) :
    emit e w = Outcome.returned () (w.append [e]) := rfl

theorem spaceLoop_eq (n : Nat) : ∀ (i start : Int) (w : World), (start - i).toNat = n →
    spaceLoop i start w
      = Outcome.returned () (w.append (List.replicate n (Event.write Stream.stderr " "))) := by
  induction n with
  | zero =>
    intro i start w h
    rw [spaceLoop]
    have hlt : ¬ i < start := by omega
    simp [hlt, append_nil]
  | succ n ih =>
    intro i start w h
    rw [spaceLoop]
    have hlt : i < start := by omega
    have hn : (start - (i + 1)).toNat = n := by omega
    simp only [hlt, if_true, fprintf, emit_eq]
    rw [ih (i + 1) start _ hn, append_append]
    simp [List.replicate_succ]

theorem caretLoop_eq (n : Nat) : ∀ (i stop : Int) (w : World), (stop - i).toNat = n →
    caretLoop i stop w
      = Outcome.returned () (w.append (List.replicate n (Event.write Stream.stderr "^"))) := by
  induction n with
  | zero =>
    intro i stop w h
    rw [caretLoop]
    have hlt : ¬ i < stop := by omega
    simp [hlt, append_nil]
  | succ n ih =>
    intro i stop w h
    rw [caretLoop]
    have hlt : i < stop := by omega
    have hn : (stop - (i + 1)).toNat = n := by omega
    simp only [hlt, if_true, fprintf, emit_eq]
    rw [ih (i + 1) stop _ hn, append_append]
    simp [List.replicate_succ]

theorem positionalReport_eq (E : Engine) (message : Message) (error : Value) (w : World) :
    positionalReport E message error w
      = Outcome.returned () (w.append (positionalEvents E message error)) := by
  simp only [positionalReport, bind_apply, Proc.bind, positionalEvents]
  cases hU : Utf8Value error <;>
    simp [fprintf, emit_eq, spaceLoop_eq _ 0 message.startColumn _ rfl,
      caretLoop_eq _ message.startColumn message.endColumn _ rfl, append_append]

theorem positionalEvents_length (E : Engine) (message : Message) (error : Value) :
    4 ≤ (positionalEvents E message error).length := by
  simp [positionalEvents]
  omega

theorem append_inj (w : World) (xs ys : List Event) (h : w.append xs = w.append ys) :
    xs = ys := by
  simp only [World.append, World.mk.injEq] at h
  exact List.append_cancel_left h.1

/-! ## Facts about `ReportException` -/

theorem stackOf_eq_some_iff (error : Value) (s : String) :
    stackOf error = some s
      ↔ ∃ props str, error = Value.object props str
          ∧ props.lookup "stack" = some (Value.string s) := by
  cases error with
  | object props str =>
    simp only [stackOf, Value.IsObject, if_true, Value.Get, Value.object.injEq]
    constructor
    · intro h
      refine ⟨props, str, ⟨rfl, rfl⟩, ?_⟩
      cases hl : props.lookup "stack" with
      | none => simp [hl, Value.IsString] at h
      | some v =>
        cases v <;> simp_all [Value.IsString, Value.castString]
    · rintro ⟨props1, str1, ⟨rfl, rfl⟩, hl⟩
      simp [hl, Value.IsString, Value.castString]
  | _ => simp [stackOf, Value.IsObject]

theorem ReportException_noMessage (E : Engine) (try_catch : TryCatch) (w : World)
    (h : try_catch.Message = none) :
    ReportException E try_catch w
      = Outcome.returned () (w.append
          [Event.write Stream.stderr "Error: (no message)\n", Event.flush Stream.stderr]) := by
  simp [ReportException, h, bind_apply, Proc.bind, fprintf, fflush, emit_eq, append_append]

theorem ReportException_stack (E : Engine) (message : Message) (error : Value) (s : String)
    (w : World) (h : stackOf error = some s) :
    ReportException E (some (Caught.mk (some message) error)) w
      = Outcome.returned () (w.append
          [Event.write Stream.stderr (s ++ "\n"), Event.flush Stream.stderr]) := by
  simp [ReportException, TryCatch.Message, TryCatch.Exception, h, bind_apply, Proc.bind,
    stackReport, Utf8Value, fprintf, fflush, emit_eq, append_append]

theorem ReportException_positional (E : Engine) (message : Message) (error : Value)
    (w : World) (h : stackOf error = none) :
    ReportException E (some (Caught.mk (some message) error)) w
      = Outcome.returned () (w.append
          (positionalEvents E message error ++ [Event.flush Stream.stderr])) := by
  simp [ReportException, TryCatch.Message, TryCatch.Exception, h, bind_apply, Proc.bind,
    positionalReport_eq, fflush, emit_eq, append_append]

theorem positionalEvents_isErrorOutput (E : Engine) (message : Message) (error : Value) :
    ∀ e ∈ positionalEvents E message error, e.isErrorOutput = true := by
  intro e he
  simp only [positionalEvents, List.mem_cons, List.mem_append, List.mem_replicate,
    List.mem_singleton, List.not_mem_nil, or_false] at he
  rcases he with h | h | h | h | h | h
  · subst h
    cases Utf8Value error <;> rfl
  · subst h; rfl
  · rw [h.2]; rfl
  · rw [h.2]; rfl
  · subst h; rfl
  · subst h; rfl

/-- Whatever it is given, `ReportException` returns, and all it does is output. -/
theorem ReportException_output (E : Engine) (try_catch : TryCatch) (w : World) :
    ∃ evs, ReportException E try_catch w = Outcome.returned () (w.append evs)
      ∧ ∀ e ∈ evs, e.isErrorOutput = true := by
  cases hm : try_catch.Message with
  | none =>
    refine ⟨_, ReportException_noMessage E try_catch w hm, ?_⟩
    intro e he
    simp only [List.mem_cons, List.mem_singleton, List.not_mem_nil, or_false] at he
    rcases he with h | h <;> subst h <;> rfl
  | some message =>
    cases try_catch with
    | none => simp [TryCatch.Message] at hm
    | some c =>
      cases c with
      | mk msg error =>
        simp only [TryCatch.Message] at hm
        subst hm
        cases hs : stackOf error with
        | none =>
          refine ⟨_, ReportException_positional E message error w hs, ?_⟩
          intro e he
          rcases List.mem_append.1 he with h | h
          · exact positionalEvents_isErrorOutput E message error e h
          · simp only [List.mem_singleton] at h
            subst h; rfl
        | some s =>
          refine ⟨_, ReportException_stack E message error s w hs, ?_⟩
          intro e he
          simp only [List.mem_cons, List.mem_singleton, List.not_mem_nil, or_false] at he
          rcases he with h | h <;> subst h <;> rfl

/-! ## Facts about the text on the streams -/

theorem stderrText_append (xs ys : List Event) :
    stderrText (xs ++ ys) = stderrText xs ++ stderrText ys := by
  induction xs with
  | nil => simp [stderrText]
  | cons e xs ih =>
    cases e with
    | write s t =>
      cases s <;> simp [stderrText, ih, String.append_assoc]
    | _ => simp [stderrText, ih]

theorem stderrText_replicate (n : Nat) (c : Char) :
    stderrText (List.replicate n (Event.write Stream.stderr (String.singleton c)))
      = String.mk (List.replicate n c) := by
  induction n with
  | zero => rfl
  | succ n ih =>
    simp only [List.replicate_succ, stderrText, ih]
    rfl

/-- The text of the positional report, whatever the message and the thrown
value. -/
theorem stderrText_positionalEvents (E : Engine) (message : Message) (error : Value)
    (m : String) (hm : Utf8Value error = some m) :
    stderrText (positionalEvents E message error ++ [Event.flush Stream.stderr])
      = ToCString (Utf8Value message.resourceName) ++ ":" ++ toString message.lineNumber
          ++ ": " ++ m ++ "\n" ++ ToCString message.sourceLine ++ "\n"
          ++ String.mk (List.replicate message.startColumn.toNat ' ')
          ++ String.mk (List.replicate (message.endColumn - message.startColumn).toNat '^')
          ++ "\n" ++ E.currentStackTrace := by
  have hsp := stderrText_replicate message.startColumn.toNat ' '
  have hca := stderrText_replicate (message.endColumn - message.startColumn).toNat '^'
  have h1 : String.singleton ' ' = " " := rfl
  have h2 : String.singleton '^' = "^" := rfl
  rw [h1] at hsp
  rw [h2] at hca
  simp only [positionalEvents, hm, List.cons_append, stderrText, stderrText_append, hsp, hca,
    String.append_assoc, String.append_empty]

/-- C8. When the engine produced no message object, `ReportException` writes
exactly the one line "Error: (no message)" to the error stream, flushes the
error stream and returns, whatever the thrown value is. -/
theorem C8_no_message_generic_line (E : Engine) (try_catch : TryCatch) (w : World)
    (h : try_catch.Message = none) :
    ReportException E try_catch w
      = Outcome.returned () (w.append
          [Event.write Stream.stderr "Error: (no message)\n", Event.flush Stream.stderr]) :=
  ReportException_noMessage E try_catch w h

/-- Witness for C8: an exception without a message object whose thrown value
carries a `stack` string. -/
theorem C8_no_message_generic_line_witness :
    TryCatch.Message (some (Caught.mk none boomError)) = none
    ∧ ReportException rejectingEngine (some (Caught.mk none boomError)) World.start
        = Outcome.returned () (World.start.append
            [Event.write Stream.stderr "Error: (no message)\n", Event.flush Stream.stderr]) :=
  ⟨rfl, C8_no_message_generic_line rejectingEngine (some (Caught.mk none boomError))
    World.start rfl⟩

/-- C10. With a message object present, `ReportException` runs the stack report
exactly when the thrown value is an object whose `stack` property is a string,
and runs the positional report exactly when it is not (not an object, no
`stack` property, or a `stack` property that is not a string); so exactly one
of the two is run, and on both the flush of the error stream is the last
event before it returns. -/
theorem C10_path_selection (E : Engine) (message : Message) (error : Value) (w : World) :
    ((∃ stack, ReportException E (some (Caught.mk (some message) error)) w
          = (stackReport stack >>= fun _ => fflush Stream.stderr) w)
      ↔ ∃ props str stack, error = Value.object props str
          ∧ props.lookup "stack" = some (Value.string stack))
    ∧ (ReportException E (some (Caught.mk (some message) error)) w
          = (positionalReport E message error >>= fun _ => fflush Stream.stderr) w
      ↔ ¬ ∃ props str stack, error = Value.object props str
          ∧ props.lookup "stack" = some (Value.string stack))
    ∧ ∃ evs, ReportException E (some (Caught.mk (some message) error)) w
        = Outcome.returned () (w.append (evs ++ [Event.flush Stream.stderr])) := by
  have hS : ∀ stack, (stackReport stack >>= fun _ => fflush Stream.stderr) w
      = Outcome.returned () (w.append
          [Event.write Stream.stderr (stack ++ "\n"), Event.flush Stream.stderr]) := by
    intro stack
    simp [bind_apply, Proc.bind, stackReport, Utf8Value, fprintf, fflush, emit_eq, append_append]
  have hP : (positionalReport E message error >>= fun _ => fflush Stream.stderr) w
      = Outcome.returned () (w.append
          (positionalEvents E message error ++ [Event.flush Stream.stderr])) := by
    simp [bind_apply, Proc.bind, positionalReport_eq, fflush, emit_eq, append_append]
  have hlen := positionalEvents_length E message error
  have hne : ∀ stack, positionalEvents E message error ++ [Event.flush Stream.stderr]
      ≠ [Event.write Stream.stderr (stack ++ "\n"), Event.flush Stream.stderr] := by
    intro stack h
    have := congrArg List.length h
    simp at this
    omega
  cases hs : stackOf error with
  | none =>
    have hnot : ¬ ∃ props str stack, error = Value.object props str
        ∧ props.lookup "stack" = some (Value.string stack) := by
      rintro ⟨props, str, stack, h1, h2⟩
      have := (stackOf_eq_some_iff error stack).2 ⟨props, str, h1, h2⟩
      rw [hs] at this
      exact Option.noConfusion this
    have hR := ReportException_positional E message error w hs
    refine ⟨⟨?_, fun h => absurd h hnot⟩, ⟨fun _ => hnot, fun _ => by rw [hR, hP]⟩,
      ⟨_, hR⟩⟩
    rintro ⟨stack, h⟩
    rw [hR, hS stack] at h
    exact absurd (append_inj w _ _ (Outcome.returned.inj h).2) (hne stack)
  | some s =>
    have hyes : ∃ props str stack, error = Value.object props str
        ∧ props.lookup "stack" = some (Value.string stack) := by
      obtain ⟨props, str, h1, h2⟩ := (stackOf_eq_some_iff error s).1 hs
      exact ⟨props, str, s, h1, h2⟩
    have hR := ReportException_stack E message error s w hs
    refine ⟨⟨fun _ => hyes, fun _ => ⟨s, by rw [hR, hS s]⟩⟩, ⟨?_, fun h => absurd hyes h⟩,
      ⟨[Event.write Stream.stderr (s ++ "\n")], hR⟩⟩
    intro h
    rw [hR, hP] at h
    exact absurd (append_inj w _ _ (Outcome.returned.inj h).2).symm (hne s)

/-! ## Facts about `ExecuteString` and `ExecuteNativeJS` -/

theorem ExecuteString_compileError (E : Engine) (source : String) (filename : Value)
    (c : Caught) (w : World) (h : E.compile source filename = Except.error c) :
    ExecuteString E source filename w
      = (ReportException E (some c) >>= fun _ => (exit 1 : Proc Value))
          (World.mk (w.trace ++ [Event.compile source filename]) (some c :: w.handlers)
            w.nextObject) := by
  simp [ExecuteString, bind_apply, Proc.bind, tryCatchEnter, scriptCompile, emit_eq, h, capture,
    tryCatchCurrent, pure_apply, World.append]

theorem ExecuteString_runError (E : Engine) (source : String) (filename : Value)
    (script : Script) (c : Caught) (w : World)
    (hc : E.compile source filename = Except.ok script) (hr : E.run script = Except.error c) :
    ExecuteString E source filename w
      = (ReportException E (some c) >>= fun _ => (exit 1 : Proc Value))
          (World.mk (w.trace ++ [Event.compile source filename, Event.run script])
            (some c :: w.handlers) w.nextObject) := by
  simp [ExecuteString, bind_apply, Proc.bind, tryCatchEnter, scriptCompile, scriptRun, emit_eq,
    hc, hr, capture, tryCatchCurrent, pure_apply, World.append]

theorem ExecuteString_ok (E : Engine) (source : String) (filename : Value)
    (script : Script) (v : Value) (w : World)
    (hc : E.compile source filename = Except.ok script) (hr : E.run script = Except.ok v) :
    ExecuteString E source filename w
      = Outcome.returned v (w.append [Event.compile source filename, Event.run script]) := by
  simp [ExecuteString, bind_apply, Proc.bind, tryCatchEnter, scriptCompile, scriptRun, emit_eq,
    hc, hr, tryCatchLeave, pure_apply, World.append]

/-- A report followed by `exit(1)` ends the process with status 1 after the
events of the report. -/
theorem report_then_exit {α : Type} (E : Engine) (try_catch : TryCatch) (w : World) :
    ∃ evs, ReportException E try_catch w = Outcome.returned () (w.append evs)
      ∧ (∀ e ∈ evs, e.isErrorOutput = true)
      ∧ (ReportException E try_catch >>= fun _ => (exit 1 : Proc α)) w
          = Outcome.exited 1 (w.append evs) := by
  obtain ⟨evs, h1, h2⟩ := ReportException_output E try_catch w
  exact ⟨evs, h1, h2, by simp [bind_apply, Proc.bind, h1, exit]⟩

/-- The engine events of a failing `ExecuteString`: the compile call alone when
compilation fails, the compile call and the run call when the script throws. -/
theorem ExecuteString_failure (E : Engine) (source : String) (filename : Value)
    (c : Caught) (w : World)
    (hfail : E.compile source filename = Except.error c
      ∨ ∃ script, E.compile source filename = Except.ok script
          ∧ E.run script = Except.error c) :
    ∃ pre evs,
      ExecuteString E source filename w
        = Outcome.exited 1
            ((World.mk (w.trace ++ pre) (some c :: w.handlers) w.nextObject).append evs)
      ∧ ReportException E (some c) (World.mk (w.trace ++ pre) (some c :: w.handlers) w.nextObject)
        = Outcome.returned ()
            ((World.mk (w.trace ++ pre) (some c :: w.handlers) w.nextObject).append evs)
      ∧ (∀ e ∈ evs, e.isErrorOutput = true)
      ∧ ((∃ c1, E.compile source filename = Except.error c1)
          → pre = [Event.compile source filename])
      ∧ (∀ script, E.compile source filename = Except.ok script
          → pre = [Event.compile source filename, Event.run script]) := by
  rcases hfail with h | ⟨script, hc, hr⟩
  · obtain ⟨evs, h1, h2, h3⟩ := @report_then_exit Value E (some c)
      (World.mk (w.trace ++ [Event.compile source filename]) (some c :: w.handlers) w.nextObject)
    refine ⟨[Event.compile source filename], evs, ?_, h1, h2, fun _ => rfl, ?_⟩
    · rw [ExecuteString_compileError E source filename c w h, h3]
    · intro script hs
      rw [h] at hs
      exact Except.noConfusion hs
  · obtain ⟨evs, h1, h2, h3⟩ := @report_then_exit Value E (some c)
      (World.mk (w.trace ++ [Event.compile source filename, Event.run script])
        (some c :: w.handlers) w.nextObject)
    refine ⟨[Event.compile source filename, Event.run script], evs, ?_, h1, h2, ?_, ?_⟩
    · rw [ExecuteString_runError E source filename script c w hc hr, h3]
    · rintro ⟨c1, h⟩
      rw [hc] at h
      exact Except.noConfusion h
    · intro script1 hs
      rw [hc] at hs
      cases hs
      rfl

/-- A failing bootstrap source: the process ends inside `ExecuteString`, with
the events of one report after the engine calls, all of them output to the
error stream or flushes. -/
theorem ExecuteNativeJS_failure (E : Engine) (filename data : String) (c : Caught) (w : World)
    (hfail : E.compile data (Value.string filename) = Except.error c
      ∨ ∃ script, E.compile data (Value.string filename) = Except.ok script
          ∧ E.run script = Except.error c) :
    ExecuteNativeJS E filename data w
      = (match ExecuteString E data (Value.string filename)
            (World.mk w.trace (none :: w.handlers) w.nextObject) with
          | Outcome.returned _ w1 => Outcome.returned () w1
          | Outcome.exited status w1 => Outcome.exited status w1)
    ∧ ∃ w1, ExecuteString E data (Value.string filename)
            (World.mk w.trace (none :: w.handlers) w.nextObject) = Outcome.exited 1 w1 := by
  obtain ⟨pre, evs, h1, -⟩ := ExecuteString_failure E data (Value.string filename) c
    (World.mk w.trace (none :: w.handlers) w.nextObject) hfail
  refine ⟨?_, _, h1⟩
  simp only [ExecuteNativeJS, bind_apply, Proc.bind, tryCatchEnter]
  rw [h1]

theorem ExecuteNativeJS_ok (E : Engine) (filename data : String) (script : Script) (v : Value)
    (w : World)
    (hc : E.compile data (Value.string filename) = Except.ok script)
    (hr : E.run script = Except.ok v) :
    ExecuteNativeJS E filename data w
      = Outcome.returned ()
          (w.append [Event.compile data (Value.string filename), Event.run script]) := by
  simp only [ExecuteNativeJS, bind_apply, Proc.bind, tryCatchEnter]
  rw [ExecuteString_ok E data (Value.string filename) script v _ hc hr]
  simp [tryCatchCurrent, TryCatch.HasCaught, World.append, tryCatchLeave, pure_apply,
    bind_apply, Proc.bind]

theorem stdoutText_isErrorOutput_or_run (evs : List Event)
    (h : ∀ e ∈ evs, e.isErrorOutput = true
      ∨ (∃ source filename, e = Event.compile source filename)
      ∨ ∃ script, e = Event.run script) :
    stdoutText evs = "" := by
  induction evs with
  | nil => rfl
  | cons e evs ih =>
    have he := h e (List.mem_cons_self e evs)
    have ht := ih (fun x hx => h x (List.mem_cons_of_mem e hx))
    cases e with
    | write s t =>
      cases s with
      | stdout =>
        rcases he with h1 | ⟨_, _, h1⟩ | ⟨_, h1⟩
        · simp [Event.isErrorOutput] at h1
        · exact Event.noConfusion h1
        · exact Event.noConfusion h1
      | stderr => simp [stdoutText, ht]
    | _ => simp [stdoutText, ht]

/-- The trace of `ExecuteNativeJS`: one compile call for the given source and
label, then at most the run call and output to the error stream. -/
theorem ExecuteNativeJS_trace (E : Engine) (filename data : String) (w : World) :
    ∃ rest, (ExecuteNativeJS E filename data w).world.trace
        = w.trace ++ Event.compile data (Value.string filename) :: rest
      ∧ ∀ e ∈ rest, e.isErrorOutput = true ∨ ∃ script, e = Event.run script := by
  cases hc : E.compile data (Value.string filename) with
  | error c =>
    obtain ⟨pre, evs, h1, -, h3, h4, -⟩ := ExecuteString_failure E data (Value.string filename) c
      (World.mk w.trace (none :: w.handlers) w.nextObject) (Or.inl hc)
    have hpre := h4 ⟨c, hc⟩
    subst hpre
    refine ⟨evs, ?_, fun e he => Or.inl (h3 e he)⟩
    rw [(ExecuteNativeJS_failure E filename data c w (Or.inl hc)).1, h1]
    simp [Outcome.world, World.append]
  | ok script =>
    cases hr : E.run script with
    | error c =>
      obtain ⟨pre, evs, h1, -, h3, -, h5⟩ := ExecuteString_failure E data (Value.string filename)
        c (World.mk w.trace (none :: w.handlers) w.nextObject) (Or.inr ⟨script, hc, hr⟩)
      have hpre := h5 script hc
      subst hpre
      refine ⟨Event.run script :: evs, ?_, ?_⟩
      · rw [(ExecuteNativeJS_failure E filename data c w (Or.inr ⟨script, hc, hr⟩)).1, h1]
        simp [Outcome.world, World.append]
      · intro e he
        rcases List.mem_cons.1 he with h | h
        · exact Or.inr ⟨script, h⟩
        · exact Or.inl (h3 e h)
    | ok v =>
      refine ⟨[Event.run script], ?_, ?_⟩
      · rw [ExecuteNativeJS_ok E filename data script v w hc hr]
        simp [Outcome.world, World.append]
      · intro e he
        exact Or.inr ⟨script, List.mem_singleton.1 he⟩

theorem InitializeLibXMLJS_eq (E : Engine) (native_sax_parser_source : String) (target : Nat)
    (w : World) :
    InitializeLibXMLJS E native_sax_parser_source target w
      = ExecuteNativeJS E "sax_parser.js" native_sax_parser_source
          (w.append [Event.register Module.Parser target,
            Event.register Module.SaxParser target,
            Event.register Module.SaxPushParser target]) := by
  simp [InitializeLibXMLJS, bind_apply, Proc.bind, emit_eq, append_append]

/-- For every bootstrap source that fails to compile or throws, the process
ends with status 1 and nothing was written to standard output. -/
theorem ExecuteNativeJS_failure_stdout (E : Engine) (filename data : String) (c : Caught)
    (hfail : E.compile data (Value.string filename) = Except.error c
      ∨ ∃ script, E.compile data (Value.string filename) = Except.ok script
          ∧ E.run script = Except.error c) :
    (ExecuteNativeJS E filename data World.start).status = some 1
    ∧ stdoutText (ExecuteNativeJS E filename data World.start).world.trace = "" := by
  obtain ⟨h1, w1, h2⟩ := ExecuteNativeJS_failure E filename data c World.start hfail
  obtain ⟨rest, h3, h4⟩ := ExecuteNativeJS_trace E filename data World.start
  constructor
  · rw [h1, h2]
    rfl
  · rw [h3]
    refine stdoutText_isErrorOutput_or_run _ ?_
    intro e he
    simp only [World.start, List.nil_append, List.mem_cons] at he
    rcases he with h | h
    · exact Or.inr (Or.inl ⟨_, _, h⟩)
    · rcases h4 e h with h5 | ⟨script, h5⟩
      · exact Or.inl h5
      · exact Or.inr (Or.inr ⟨script, h5⟩)

/-! ## The claims about `ExecuteString`, `ExecuteNativeJS`, `InitializeLibXMLJS` and `main` -/

/-- C1 (the code departs from it). The bootstrap source `var x = ;` labelled
`sax_parser.js` fails to compile: the process ends with status 1 and the
positional report is on the error stream, but standard output is empty. The two
notice lines of `ExecuteNativeJS` are not printed, because `ExecuteString` has
already ended the process. -/
theorem C1_failing_bootstrap_prints_no_notice :
    (ExecuteNativeJS rejectingEngine "sax_parser.js" "var x = ;" World.start).status = some 1
    ∧ stderrText (ExecuteNativeJS rejectingEngine "sax_parser.js" "var x = ;"
        World.start).world.trace
      = "sax_parser.js:1: SyntaxError: Unexpected token ;\nvar x = ;\n        ^\n"
    ∧ stdoutText (ExecuteNativeJS rejectingEngine "sax_parser.js" "var x = ;"
        World.start).world.trace = "" := by
  have hfail : rejectingEngine.compile "var x = ;" (Value.string "sax_parser.js")
      = Except.error (Caught.mk (some (syntaxMessage (Value.string "sax_parser.js")))
          syntaxError) := rfl
  rw [(ExecuteNativeJS_failure rejectingEngine "sax_parser.js" "var x = ;" _ World.start
    (Or.inl hfail)).1, ExecuteString_compileError _ _ _ _ _ hfail]
  simp only [bind_apply, Proc.bind]
  rw [ReportException_positional rejectingEngine (syntaxMessage (Value.string "sax_parser.js"))
    syntaxError _ rfl]
  exact ⟨rfl, rfl, rfl⟩

/-- C4. For every namespace object, `InitializeLibXMLJS` registers `Parser`,
`SaxParser` and `SaxPushParser` on that object, in this order, and then runs
`ExecuteNativeJS` on the bundled source labelled `sax_parser.js`: the trace
starts with the three registrations followed by the compile call of the bundled
source under that label, and no registration and no compile call follows. -/
theorem C4_registration_order (E : Engine) (native_sax_parser_source : String) (target : Nat)
    (w : World) :
    InitializeLibXMLJS E native_sax_parser_source target w
      = ExecuteNativeJS E "sax_parser.js" native_sax_parser_source
          (w.append [Event.register Module.Parser target,
            Event.register Module.SaxParser target,
            Event.register Module.SaxPushParser target])
    ∧ ∃ rest, (InitializeLibXMLJS E native_sax_parser_source target w).world.trace
        = w.trace ++ [Event.register Module.Parser target,
            Event.register Module.SaxParser target,
            Event.register Module.SaxPushParser target,
            Event.compile native_sax_parser_source (Value.string "sax_parser.js")] ++ rest
      ∧ (∀ m t, Event.register m t ∉ rest)
      ∧ (∀ source filename, Event.compile source filename ∉ rest) := by
  refine ⟨InitializeLibXMLJS_eq E native_sax_parser_source target w, ?_⟩
  obtain ⟨rest, h1, h2⟩ := ExecuteNativeJS_trace E "sax_parser.js" native_sax_parser_source
    (w.append [Event.register Module.Parser target, Event.register Module.SaxParser target,
      Event.register Module.SaxPushParser target])
  refine ⟨rest, ?_, ?_, ?_⟩
  · rw [InitializeLibXMLJS_eq, h1]
    simp [World.append]
  · intro m t hmem
    rcases h2 _ hmem with h | ⟨script, h⟩
    · simp [Event.isErrorOutput] at h
    · exact Event.noConfusion h
  · intro source filename hmem
    rcases h2 _ hmem with h | ⟨script, h⟩
    · simp [Event.isErrorOutput] at h
    · exact Event.noConfusion h

/-- C5. For every source unit whose compilation fails or whose execution
throws, with `c` the exception captured for that step, `ExecuteString` runs
`ReportException` once, on `c`, and then ends the process with exit status 1: it
does not return. After the engine calls (`pre`) the events are exactly those of
that one report, all of them output to the error stream; after a compile
failure the engine calls are the compile call alone, so the script is not
run. -/
theorem C5_failure_reports_and_exits (E : Engine) (source : String) (filename : Value)
    (c : Caught) (w : World)
    (hfail : E.compile source filename = Except.error c
      ∨ ∃ script, E.compile source filename = Except.ok script
          ∧ E.run script = Except.error c) :
    ∃ pre evs,
      ExecuteString E source filename w
        = Outcome.exited 1
            ((World.mk (w.trace ++ pre) (some c :: w.handlers) w.nextObject).append evs)
      ∧ ReportException E (some c) (World.mk (w.trace ++ pre) (some c :: w.handlers) w.nextObject)
        = Outcome.returned ()
            ((World.mk (w.trace ++ pre) (some c :: w.handlers) w.nextObject).append evs)
      ∧ (∀ e ∈ evs, e.isErrorOutput = true)
      ∧ ((∃ c1, E.compile source filename = Except.error c1)
          → pre = [Event.compile source filename])
      ∧ (∀ script, E.compile source filename = Except.ok script
          → pre = [Event.compile source filename, Event.run script]) :=
  ExecuteString_failure E source filename c w hfail

/-- Witness for C5: a source that fails to compile. -/
theorem C5_failure_reports_and_exits_witness :
    (rejectingEngine.compile "var x = ;" (Value.string "test.js")
        = Except.error (Caught.mk (some (syntaxMessage (Value.string "test.js"))) syntaxError)
      ∨ ∃ script, rejectingEngine.compile "var x = ;" (Value.string "test.js") = Except.ok script
          ∧ rejectingEngine.run script
            = Except.error (Caught.mk (some (syntaxMessage (Value.string "test.js")))
                syntaxError))
    ∧ ∃ pre evs,
      ExecuteString rejectingEngine "var x = ;" (Value.string "test.js") World.start
        = Outcome.exited 1
            ((World.mk (World.start.trace ++ pre)
              (some (Caught.mk (some (syntaxMessage (Value.string "test.js"))) syntaxError)
                :: World.start.handlers) World.start.nextObject).append evs)
      ∧ ReportException rejectingEngine
          (some (Caught.mk (some (syntaxMessage (Value.string "test.js"))) syntaxError))
          (World.mk (World.start.trace ++ pre)
            (some (Caught.mk (some (syntaxMessage (Value.string "test.js"))) syntaxError)
              :: World.start.handlers) World.start.nextObject)
        = Outcome.returned ()
            ((World.mk (World.start.trace ++ pre)
              (some (Caught.mk (some (syntaxMessage (Value.string "test.js"))) syntaxError)
                :: World.start.handlers) World.start.nextObject).append evs)
      ∧ (∀ e ∈ evs, e.isErrorOutput = true)
      ∧ ((∃ c1, rejectingEngine.compile "var x = ;" (Value.string "test.js") = Except.error c1)
          → pre = [Event.compile "var x = ;" (Value.string "test.js")])
      ∧ (∀ script,
          rejectingEngine.compile "var x = ;" (Value.string "test.js") = Except.ok script
          → pre = [Event.compile "var x = ;" (Value.string "test.js"), Event.run script]) :=
  ⟨Or.inl rfl, C5_failure_reports_and_exits rejectingEngine "var x = ;" (Value.string "test.js")
    (Caught.mk (some (syntaxMessage (Value.string "test.js"))) syntaxError) World.start
    (Or.inl rfl)⟩

/-- C6. For every source unit that compiles and runs without throwing,
`ExecuteString` returns the value produced by the run step; the only events are
the compile call and the run call, so nothing is written to the error stream,
and the process is not ended. -/
theorem C6_success_returns_completion_value (E : Engine) (source : String) (filename : Value)
    (script : Script) (v : Value) (w : World)
    (hc : E.compile source filename = Except.ok script) (hr : E.run script = Except.ok v) :
    ExecuteString E source filename w
        = Outcome.returned v (w.append [Event.compile source filename, Event.run script])
    ∧ stderrText [Event.compile source filename, Event.run script] = ""
    ∧ (ExecuteString E source filename w).status = none := by
  have h := ExecuteString_ok E source filename script v w hc hr
  refine ⟨h, rfl, ?_⟩
  rw [h]
  rfl

/-- Witness for C6: a source that compiles and completes with 42. -/
theorem C6_success_returns_completion_value_witness :
    acceptingEngine.compile "6 * 7" (Value.string "test.js")
        = Except.ok (Script.mk "6 * 7" (Value.string "test.js"))
    ∧ acceptingEngine.run (Script.mk "6 * 7" (Value.string "test.js"))
        = Except.ok (Value.number 42)
    ∧ (ExecuteString acceptingEngine "6 * 7" (Value.string "test.js") World.start
        = Outcome.returned (Value.number 42)
            (World.start.append [Event.compile "6 * 7" (Value.string "test.js"),
              Event.run (Script.mk "6 * 7" (Value.string "test.js"))])
      ∧ stderrText [Event.compile "6 * 7" (Value.string "test.js"),
          Event.run (Script.mk "6 * 7" (Value.string "test.js"))] = ""
      ∧ (ExecuteString acceptingEngine "6 * 7" (Value.string "test.js") World.start).status
          = none) :=
  ⟨rfl, rfl, C6_success_returns_completion_value acceptingEngine "6 * 7"
    (Value.string "test.js") (Script.mk "6 * 7" (Value.string "test.js")) (Value.number 42)
    World.start rfl rfl⟩

/-- A compile failure whose thrown value carries no stack string and can be
converted: `ExecuteString` ends the process with status 1 after the compile
call and the positional report. -/
theorem ExecuteString_compileError_positional (E : Engine) (source : String)
    (filename : Value) (message : Message) (error : Value) (m : String) (w : World)
    (hc : E.compile source filename = Except.error (Caught.mk (some message) error))
    (hstack : stackOf error = none) (hm : Utf8Value error = some m) :
    ∃ evs, ExecuteString E source filename w
        = Outcome.exited 1 (World.mk (w.trace ++ Event.compile source filename :: evs)
            (some (Caught.mk (some message) error) :: w.handlers) w.nextObject)
      ∧ stderrText evs
        = ToCString (Utf8Value message.resourceName) ++ ":" ++ toString message.lineNumber
          ++ ": " ++ m ++ "\n" ++ ToCString message.sourceLine ++ "\n"
          ++ String.mk (List.replicate message.startColumn.toNat ' ')
          ++ String.mk (List.replicate (message.endColumn - message.startColumn).toNat '^')
          ++ "\n" ++ E.currentStackTrace := by
  refine ⟨_, ?_, stderrText_positionalEvents E message error m hm⟩
  rw [ExecuteString_compileError E source filename _ w hc]
  simp only [bind_apply, Proc.bind]
  rw [ReportException_positional E message error _ hstack]
  simp [exit, World.append]

/-! ## Scenarios -/

/-- A script that throws an object carrying a stack string: `ExecuteString`
prints that stack and ends the process with status 1. -/
theorem scenario_throw_prints_stack :
    (ExecuteString throwingEngine "throw new Error(1)" (Value.string "test.js")
        World.start).status = some 1
    ∧ stderrText (ExecuteString throwingEngine "throw new Error(1)" (Value.string "test.js")
        World.start).world.trace = "Error: boom\n    at test.js:1:7\n" :=
  ⟨rfl, rfl⟩

/-- A bootstrap source that compiles and runs: `InitializeLibXMLJS` returns,
nothing is written to either stream, and the `TryCatch` blocks are gone. -/
theorem scenario_bootstrap_succeeds :
    InitializeLibXMLJS acceptingEngine "exports = 1" 0 World.start
      = Outcome.returned () (World.mk
          [Event.register Module.Parser 0, Event.register Module.SaxParser 0,
            Event.register Module.SaxPushParser 0,
            Event.compile "exports = 1" (Value.string "sax_parser.js"),
            Event.run (Script.mk "exports = 1" (Value.string "sax_parser.js"))] [] 0) :=
  rfl

end LibXmlJs
